import Mathlib

/-!
Formal model of the InterestLens personalization engine.

The definitions below are shallow embeddings of the scoring, profile-update
and extraction code of the repository:

* `calculate_score`, `calculate_score_with_voice_prefs` embed the Python
  scoring functions of the PRD (src/unnamed/part_008, sections 7.3 and 7.7);
  floats are modelled as exact rationals cast into the reals where the
  logistic function is involved, and Python `int(...)` (truncation toward
  zero) is modelled by `truncToInt`.
* `save_preferences` embeds the Python voice-preference merge
  (src/unnamed/part_008, section `save_preferences`).
* `applyEvent` packages the click / thumbs-down update formulas of the PRD
  (src/unnamed/part_008, "EMA Update Formula").
* `calculateMatchScore` embeds the highlighter scoring
  (src/interestlens/BrowserPlugin/highlighter.js); the DOM text-match test
  `textLower.includes(category) || textMatches(textLower, category)` is
  abstracted as a boolean oracle on the category.
* `buildCardDomain` embeds the domain derivation of `buildCard`
  (src/interestlens/BrowserPlugin/sidebar.js); the browser URL parser is
  abstracted as an optional hostname input.
* `handleLogEvent` embeds the LOG_EVENT branch of `handleMessage`
  (src/interestlens/extension/src/background/service-worker.ts).
* `extractPageItems` embeds the extraction loop of
  src/interestlens/extension/src/content/index.ts.
-/

namespace InterestLens

/-- Embeds the `ContentFingerprint` dataclass of the PRD (part_008 §7.1).
Float fields are modelled as rationals, embeddings as rational vectors. -/
structure ContentFingerprint where
  id : String
  text : String
  url : String
  domain : String
  topics : List String
  text_embedding : List ℚ
  image_embedding : List ℚ
  bbox : ℚ × ℚ × ℚ × ℚ
  prominence : ℚ

/-- One extracted voice topic preference (part_008 §7.4 / §7.7):
`{topic, sentiment, intensity, subtopics, avoid_subtopics}`. -/
structure VoiceTopicPref where
  topic : String
  sentiment : String
  intensity : ℚ
  subtopics : List String
  avoid_subtopics : List String

/-- The extracted voice-onboarding result consumed by scoring and by
`save_preferences`. -/
structure VoicePreferences where
  topics : List VoiceTopicPref
  confidence : ℚ

/-- Embeds the `UserProfile` dataclass of the PRD (part_008 §7.2) together
with the voice fields used by §7.4/§7.7.  The Python dictionaries
`topic_affinity` and `domain_affinity` are modelled as partial maps
(`String → Option ℚ`): `none` is an absent key. -/
structure UserProfile where
  user_text_vector : List ℚ
  topic_affinity : String → Option ℚ
  domain_affinity : String → Option ℚ
  user_image_vector : List ℚ
  voice_preferences : Option VoicePreferences
  voice_onboarding_complete : Bool
  interaction_count : ℕ

/-- The logistic function used by the scoring code: `1 / (1 + exp(-x))`. -/
noncomputable def sigmoid (x : ℝ) : ℝ := 1 / (1 + Real.exp (-x))

/-- Cosine similarity of two rational vectors, 0 when either vector is
zero (in particular when it is empty/unset), matching the spec contract
for `cosineSimilarity` (§4.3 step 1). -/
noncomputable def cosine_similarity (a b : List ℚ) : ℝ :=
  let dot : ℚ := (List.zipWith (fun x y => x * y) a b).sum
  let sa : ℚ := (a.map (fun x => x * x)).sum
  let sb : ℚ := (b.map (fun x => x * x)).sum
  if sa = 0 ∨ sb = 0 then 0
  else (dot : ℝ) / (Real.sqrt (sa : ℝ) * Real.sqrt (sb : ℝ))

/-- Python `int(...)` on a real value: truncation toward zero. -/
noncomputable def truncToInt (x : ℝ) : ℤ := if 0 ≤ x then ⌊x⌋ else ⌈x⌉

/-- Embeds `calculate_score` (part_008 §7.3, lines 1131-1168):
weighted sum of text similarity, sigmoid-normalized topic affinity,
domain affinity (default 0.5), prominence and image similarity
(default 0.5), mapped to 0-100 by `int(sigmoid(raw_score * 5) * 100)`. -/
noncomputable def calculate_score (item : ContentFingerprint) (profile : UserProfile) : ℤ :=
  let W_TEXT : ℝ := 0.35
  let W_TOPIC : ℝ := 0.30
  let W_DOMAIN : ℝ := 0.15
  let W_PROMINENCE : ℝ := 0.10
  let W_IMAGE : ℝ := 0.10
  let sim_text : ℝ := cosine_similarity item.text_embedding profile.user_text_vector
  let topic_sum : ℚ := (item.topics.map (fun t => (profile.topic_affinity t).getD 0)).sum
  let topic_score : ℝ := sigmoid (topic_sum : ℝ)
  let domain_score : ℝ := ((profile.domain_affinity item.domain).getD 0.5 : ℚ)
  let prominence_score : ℝ := (item.prominence : ℝ)
  let sim_image : ℝ :=
    if item.image_embedding ≠ [] ∧ profile.user_image_vector ≠ [] then
      cosine_similarity item.image_embedding profile.user_image_vector
    else 0.5
  let raw_score : ℝ :=
    W_TEXT * sim_text + W_TOPIC * topic_score + W_DOMAIN * domain_score +
      W_PROMINENCE * prominence_score + W_IMAGE * sim_image
  truncToInt (sigmoid (raw_score * 5) * 100)

/-- Follows the spec's words only (§4.3 step 8: "Map raw ... via
`round(sigmoid(raw*5)*100)`"), to be compared with `calculate_score`,
which truncates instead of rounding. -/
noncomputable def calculate_score_spec_round (item : ContentFingerprint) (profile : UserProfile) : ℤ :=
  let sim_text : ℝ := cosine_similarity item.text_embedding profile.user_text_vector
  let topic_sum : ℚ := (item.topics.map (fun t => (profile.topic_affinity t).getD 0)).sum
  let topic_score : ℝ := sigmoid (topic_sum : ℝ)
  let domain_score : ℝ := ((profile.domain_affinity item.domain).getD 0.5 : ℚ)
  let prominence_score : ℝ := (item.prominence : ℝ)
  let sim_image : ℝ :=
    if item.image_embedding ≠ [] ∧ profile.user_image_vector ≠ [] then
      cosine_similarity item.image_embedding profile.user_image_vector
    else 0.5
  let raw_score : ℝ :=
    0.35 * sim_text + 0.30 * topic_score + 0.15 * domain_score +
      0.10 * prominence_score + 0.10 * sim_image
  round (sigmoid (raw_score * 5) * 100)

/-- Lowercasing of a string, char by char (models Python `.lower()` /
JS `.toLowerCase()` on the ASCII strings involved). -/
def lowerStr (s : String) : String := String.mk (s.data.map Char.toLower)

/-- Substring containment on char lists: models the Python
`needle in haystack` test used on lowercased text. -/
def containsSub (hay needle : List Char) : Bool :=
  if needle.isPrefixOf hay then true
  else
    match hay with
    | [] => false
    | _ :: t => containsSub t needle

/-- Voice modifier contributed by one topic preference in
`calculate_score_with_voice_prefs` (part_008 §7.7): ±intensity·K on a
topic match, +intensity·10 per subtopic found in the item text, -15 per
avoided subtopic found in the item text. -/
def voiceMod (item : ContentFingerprint) (tp : VoiceTopicPref) : ℚ :=
  (if (item.topics.map lowerStr).contains (lowerStr tp.topic) then
      (if tp.sentiment = "like" then tp.intensity * 15
       else if tp.sentiment = "dislike" then -(tp.intensity * 20)
       else 0)
    else 0)
  + (tp.subtopics.foldl
      (fun acc st =>
        if containsSub (lowerStr item.text).data (lowerStr st).data then
          acc + tp.intensity * 10
        else acc) 0)
  + (tp.avoid_subtopics.foldl
      (fun acc av =>
        if containsSub (lowerStr item.text).data (lowerStr av).data then
          acc - 15
        else acc) 0)

/-- Embeds `calculate_score_with_voice_prefs` (part_008 §7.7, lines
929-960): base score, plus voice modifier, clamped by
`int(max(0, min(100, base_score + voice_modifier)))`. -/
noncomputable def calculate_score_with_voice_prefs
    (item : ContentFingerprint) (profile : UserProfile) : ℤ :=
  let base_score := calculate_score item profile
  match profile.voice_preferences with
  | none => base_score
  | some prefs =>
      let voice_modifier : ℚ := (prefs.topics.map (voiceMod item)).sum
      truncToInt (max 0 (min 100 ((base_score : ℝ) + (voice_modifier : ℝ))))

/-- Result record of the highlighter's `calculateMatchScore`. -/
structure MatchResult where
  score : ℚ
  matchedCategories : List String
  isDisliked : Bool

/-- Interests object built by the highlighter's `fetchUserInterests`. -/
structure Interests where
  likes : List String
  dislikes : List String
  topicAffinities : String → Option ℚ

/-- Embeds `calculateMatchScore` (highlighter.js lines 182-214).
`matchP c` stands for the text-match test
`textLower.includes(c) || textMatches(textLower, c)` of the source for the
page text under consideration. -/
def calculateMatchScore (matchP : String → Bool) (interests : Interests) : MatchResult :=
  if interests.likes = [] ∧ interests.dislikes = [] then
    { score := 0, matchedCategories := [], isDisliked := false }
  else
    let afterLikes : ℚ × List String :=
      interests.likes.foldl
        (fun acc c =>
          if matchP c then
            (acc.1 + ((interests.topicAffinities c).getD 0.5) * 50, acc.2 ++ [c])
          else acc)
        (0, [])
    let afterDislikes : ℚ × Bool :=
      interests.dislikes.foldl
        (fun acc c => if matchP c then (acc.1 - 30, true) else acc)
        (afterLikes.1, false)
    { score := max 0 (min 100 afterDislikes.1),
      matchedCategories := afterLikes.2,
      isDisliked := afterDislikes.2 }

/-- Overwrite one key of a partial map with a value (a Python dict item
assignment `d[k] = v`). -/
def setKey (f : String → Option ℚ) (k : String) (v : ℚ) : String → Option ℚ :=
  fun s => if s = k then some v else f s

/-- One iteration of the loop of `save_preferences` (part_008 lines
805-816): `weight = intensity` negated for "dislike"; then
`topic_affinity[topic] = weight`, `topic_affinity[subtopic] = weight*0.8`
for each subtopic, `topic_affinity[avoid] = -0.5` for each avoided
subtopic. -/
def mergePref (f : String → Option ℚ) (tp : VoiceTopicPref) : String → Option ℚ :=
  let weight : ℚ := if tp.sentiment = "dislike" then -tp.intensity else tp.intensity
  let f1 := setKey f tp.topic weight
  let f2 := tp.subtopics.foldl (fun g st => setKey g st (weight * 0.8)) f1
  tp.avoid_subtopics.foldl (fun g av => setKey g av (-0.5)) f2

/-- Embeds `save_preferences` (part_008 lines 800-821): merges the
extracted voice preferences into the profile's `topic_affinity` by item
assignment, sets `voice_onboarding_complete` and stores the raw
preferences. -/
def save_preferences (p : UserProfile) (prefs : VoicePreferences) : UserProfile :=
  { p with
    topic_affinity := prefs.topics.foldl mergePref p.topic_affinity,
    voice_onboarding_complete := true,
    voice_preferences := some prefs }

/-- The last value (if any) that the `save_preferences` loop writes to key
`k` while processing one preference: avoided subtopics are written last,
then subtopics, then the main topic.  Used to characterize `mergePref`. -/
def prefWrite (tp : VoiceTopicPref) (k : String) : Option ℚ :=
  let weight : ℚ := if tp.sentiment = "dislike" then -tp.intensity else tp.intensity
  if k ∈ tp.avoid_subtopics then some (-0.5)
  else if k ∈ tp.subtopics then some (weight * 0.8)
  else if k = tp.topic then some weight
  else none

/-- The last value (if any) written to key `k` over a whole preference
list, later preferences overriding earlier ones. -/
def lastWrites (prefs : List VoiceTopicPref) (k : String) : Option ℚ :=
  prefs.foldl
    (fun acc tp => match prefWrite tp k with | some v => some v | none => acc)
    none

/-- Feedback events of the profile updater (spec §4.5). -/
inductive Event where
  | click (item : ContentFingerprint)
  | thumbsUp (item : ContentFingerprint)
  | thumbsDown (item : ContentFingerprint)
  | voiceOnboardingComplete (prefs : VoicePreferences)

/-- Add `delta` to the affinity of each listed topic in order (missing
keys read as 0, per the data-model convention used by the scorer). -/
def bumpTopics (delta : ℚ) (topics : List String) (f : String → Option ℚ) :
    String → Option ℚ :=
  topics.foldl
    (fun g t => fun s => if s = t then some ((g t).getD 0 + delta) else g s) f

/-- Modelled from the spec: §4.5 `applyEvent(profile, event) -> profile'`
has no executable implementation under src/ — only the update formulas of
the PRD (part_008 "EMA Update Formula": `alpha = 0.85`,
`user_text_vector = alpha*user_text_vector + (1-alpha)*clicked_item_embedding`,
`topic_affinity[topic] += 0.3` on click, `-= 0.1` on thumbs down) and the
real `save_preferences` for voice onboarding.  This definition packages
exactly those rules. -/
def applyEvent (p : UserProfile) (e : Event) : UserProfile :=
  match e with
  | .click item =>
      let alpha : ℚ := 0.85
      { p with
        user_text_vector :=
          List.zipWith (fun a b => alpha * a + (1 - alpha) * b)
            p.user_text_vector item.text_embedding,
        topic_affinity := bumpTopics 0.3 item.topics p.topic_affinity,
        interaction_count := p.interaction_count + 1 }
  | .thumbsUp item =>
      let alpha : ℚ := 0.85
      { p with
        user_text_vector :=
          List.zipWith (fun a b => alpha * a + (1 - alpha) * b)
            p.user_text_vector item.text_embedding,
        topic_affinity := bumpTopics 0.3 item.topics p.topic_affinity,
        interaction_count := p.interaction_count + 1 }
  | .thumbsDown item =>
      { p with
        topic_affinity := bumpTopics (-0.1) item.topics p.topic_affinity,
        interaction_count := p.interaction_count + 1 }
  | .voiceOnboardingComplete prefs => save_preferences p prefs

/-- Remove the first occurrence of `pat` from `s` (JS
`s.replace(pat, '')` for a plain string pattern); `s` unchanged when
`pat` does not occur. -/
def stripFirstOcc (pat : List Char) : List Char → List Char
  | [] => []
  | c :: rest =>
      if pat.isPrefixOf (c :: rest) then (c :: rest).drop pat.length
      else c :: stripFirstOcc pat rest

/-- Embeds the domain derivation of `buildCard` (sidebar.js lines
149-152): `let domain = data.url; try { domain =
new URL(data.url).hostname.replace('www.', ''); } catch (e) {}`.
The browser URL parser is abstracted: `hostname` is `some h` when
`new URL(url)` succeeds with hostname `h`, and `none` when it throws. -/
def buildCardDomain (url : String) (hostname : Option String) : String :=
  match hostname with
  | none => url
  | some h => String.mk (stripFirstOcc "www.".data h.data)

/-- Response shape of the service worker's `sendResponse` payloads:
`success`, optional `error`, optional analysis data (only the
ANALYZE_PAGE branch ever fills `data`). -/
structure SWResponse where
  success : Bool
  error : Option String
  data : Option (List (String × ℤ))
deriving DecidableEq

/-- Embeds the LOG_EVENT branch of `handleMessage` (service-worker.ts
lines 59-76): with an auth token, forward to the backend and answer
`{success:true}` or `{success:false, error}`; without a token answer
`{success:false, error:'Not authenticated'}`.  `apiResult` abstracts the
outcome of `await logEventAPI(...)`. -/
def handleLogEvent (authToken : Option String) (apiResult : Except String Unit) :
    SWResponse :=
  match authToken with
  | some _ =>
      match apiResult with
      | Except.ok _ => { success := true, error := none, data := none }
      | Except.error e => { success := false, error := some e, data := none }
  | none => { success := false, error := some "Not authenticated", data := none }

/-- One candidate DOM element as seen by `extractPageItems`
(content/index.ts): its client rectangle and its trimmed `textContent`
(the DOM reads themselves are browser-side). -/
structure RawEl where
  x : ℚ
  y : ℚ
  width : ℚ
  height : ℚ
  text : List Char
  href : Option String

/-- The record pushed onto `items` by `extractPageItems`. -/
structure PageItem where
  id : ℕ
  href : Option String
  text : List Char
  snippet : List Char
  bbox : ℚ × ℚ × ℚ × ℚ

/-- The `elements.forEach` loop of `extractPageItems` (content/index.ts
lines 132-163): skip elements smaller than 50x20 or too far below the
viewport, take at most 200 chars of text, skip short or already-seen
texts, and record the rest (DOMRect `top` equals `y`). -/
def extractAux (innerH : ℚ) : List RawEl → List (List Char) → ℕ → List PageItem
  | [], _, _ => []
  | el :: rest, seen, idx =>
      if el.width < 50 ∨ el.height < 20 then extractAux innerH rest seen (idx + 1)
      else if el.y > innerH * 3 then extractAux innerH rest seen (idx + 1)
      else
        let t := el.text.take 200
        if t.length < 10 then extractAux innerH rest seen (idx + 1)
        else if t ∈ seen then extractAux innerH rest seen (idx + 1)
        else
          { id := idx, href := el.href, text := t, snippet := t.take 100,
            bbox := (el.x, el.y, el.width, el.height) } ::
            extractAux innerH rest (t :: seen) (idx + 1)

/-- Embeds `extractPageItems` (content/index.ts lines 114-166): run the
extraction loop over all candidate elements and keep at most 50 items. -/
def extractPageItems (innerH : ℚ) (els : List RawEl) : List PageItem :=
  (extractAux innerH els [] 0).take 50

/-- A cold-start profile: empty affinities, empty vectors, no voice
preferences. -/
def coldProfile : UserProfile :=
  { user_text_vector := []
    topic_affinity := fun _ => none
    domain_affinity := fun _ => none
    user_image_vector := []
    voice_preferences := none
    voice_onboarding_complete := false
    interaction_count := 0 }

/-- A minimal fingerprint with prominence 0. -/
def itemProm0 : ContentFingerprint :=
  { id := "a", text := "", url := "", domain := "", topics := [],
    text_embedding := [], image_embedding := [], bbox := (0, 0, 0, 0),
    prominence := 0 }

/-- A minimal fingerprint with prominence 1 (otherwise as `itemProm0`). -/
def itemProm1 : ContentFingerprint :=
  { itemProm0 with id := "b", prominence := 1 }

/-- A profile holding a prior affinity for "crypto", used against the
voice-merge claims. -/
def profileCrypto1 : UserProfile :=
  { coldProfile with topic_affinity := fun s => if s = "crypto" then some 1 else none }

/-- A voice-onboarding result liking "crypto" with intensity 0.8. -/
def prefsCryptoLike : VoicePreferences :=
  { topics := [{ topic := "crypto", sentiment := "like", intensity := 0.8,
                 subtopics := [], avoid_subtopics := [] }],
    confidence := 1 }

/-- A voice preference disliking "crypto" with intensity 0.8 (the §8
voice-bonus scenario). -/
def prefsCryptoDislike : VoicePreferences :=
  { topics := [{ topic := "crypto", sentiment := "dislike", intensity := 0.8,
                 subtopics := [], avoid_subtopics := [] }],
    confidence := 1 }

/-- A profile with the dislike-crypto voice preference and a large stored
positive affinity for "crypto". -/
def profileVoiceCryptoBig : UserProfile :=
  { coldProfile with
    topic_affinity := fun s => if s = "crypto" then some 10 else none,
    voice_preferences := some prefsCryptoDislike }

/-- `itemProm0` with the extra topic "crypto". -/
def itemCrypto : ContentFingerprint :=
  { itemProm0 with topics := itemProm0.topics ++ ["crypto"] }

/-- A minimal fingerprint with the single topic "AI". -/
def itemAI : ContentFingerprint :=
  { itemProm0 with id := "c", topics := ["AI"] }

/-- A cold profile that has completed the dislike-crypto voice
onboarding (no stored "crypto" topic affinity). -/
def profileVoiceCrypto0 : UserProfile :=
  { coldProfile with voice_preferences := some prefsCryptoDislike }

lemma sigmoid_pos (x : ℝ) : 0 < sigmoid x := by
  unfold sigmoid
  positivity

lemma sigmoid_lt_one (x : ℝ) : sigmoid x < 1 := by
  unfold sigmoid
  rw [div_lt_one (by positivity)]
  linarith [Real.exp_pos (-x)]

lemma sigmoid_eq_exp (x : ℝ) : sigmoid x = Real.exp x / (1 + Real.exp x) := by
  unfold sigmoid
  rw [Real.exp_neg]
  have h := (Real.exp_pos x).ne'
  field_simp
  ring

lemma sigmoid_mono {x y : ℝ} (h : x ≤ y) : sigmoid x ≤ sigmoid y := by
  unfold sigmoid
  have h1 : Real.exp (-y) ≤ Real.exp (-x) := Real.exp_le_exp.mpr (by linarith)
  have h2 : 0 < 1 + Real.exp (-y) := by positivity
  exact one_div_le_one_div_of_le h2 (by linarith)

lemma lt_sigmoid_of {b x : ℝ} (h : b * (1 + Real.exp x) < Real.exp x) :
    b < sigmoid x := by
  rw [sigmoid_eq_exp, lt_div_iff₀ (by positivity)]
  exact h

lemma sigmoid_lt_of {b x : ℝ} (h : Real.exp x < b * (1 + Real.exp x)) :
    sigmoid x < b := by
  rw [sigmoid_eq_exp, div_lt_iff₀ (by positivity)]
  exact h

lemma sigmoid_zero : sigmoid 0 = 1 / 2 := by
  unfold sigmoid
  rw [neg_zero, Real.exp_zero]
  norm_num

lemma exp_11_8_lt : Real.exp ((11 : ℝ) / 8) < 4 := by
  have key : Real.exp ((11 : ℝ) / 8) ^ (8 : ℕ) = Real.exp 1 ^ (11 : ℕ) := by
    rw [← Real.exp_nat_mul, ← Real.exp_nat_mul]
    norm_num
  have h1 : Real.exp 1 ^ (11 : ℕ) < 2.7182818286 ^ (11 : ℕ) :=
    pow_lt_pow_left₀ Real.exp_one_lt_d9 (Real.exp_pos 1).le (by norm_num)
  have h2 : (2.7182818286 : ℝ) ^ (11 : ℕ) < 4 ^ (8 : ℕ) := by norm_num
  exact lt_of_pow_lt_pow_left₀ 8 (by norm_num) (by rw [key]; exact h1.trans h2)

lemma exp_11_8_gt : (159 / 41 : ℝ) < Real.exp ((11 : ℝ) / 8) := by
  have key : Real.exp ((11 : ℝ) / 8) ^ (8 : ℕ) = Real.exp 1 ^ (11 : ℕ) := by
    rw [← Real.exp_nat_mul, ← Real.exp_nat_mul]
    norm_num
  have h1 : (2.7182818283 : ℝ) ^ (11 : ℕ) < Real.exp 1 ^ (11 : ℕ) :=
    pow_lt_pow_left₀ Real.exp_one_gt_d9 (by norm_num) (by norm_num)
  have h2 : (159 / 41 : ℝ) ^ (8 : ℕ) < 2.7182818283 ^ (11 : ℕ) := by norm_num
  exact lt_of_pow_lt_pow_left₀ 8 (Real.exp_pos _).le (by rw [key]; exact h2.trans h1)

lemma exp_15_8_lt : Real.exp ((15 : ℝ) / 8) < 87 / 13 := by
  have key : Real.exp ((15 : ℝ) / 8) ^ (8 : ℕ) = Real.exp 1 ^ (15 : ℕ) := by
    rw [← Real.exp_nat_mul, ← Real.exp_nat_mul]
    norm_num
  have h1 : Real.exp 1 ^ (15 : ℕ) < 2.7182818286 ^ (15 : ℕ) :=
    pow_lt_pow_left₀ Real.exp_one_lt_d9 (Real.exp_pos 1).le (by norm_num)
  have h2 : (2.7182818286 : ℝ) ^ (15 : ℕ) < (87 / 13) ^ (8 : ℕ) := by norm_num
  exact lt_of_pow_lt_pow_left₀ 8 (by norm_num) (by rw [key]; exact h1.trans h2)

lemma exp_15_8_gt : (43 / 7 : ℝ) < Real.exp ((15 : ℝ) / 8) := by
  have key : Real.exp ((15 : ℝ) / 8) ^ (8 : ℕ) = Real.exp 1 ^ (15 : ℕ) := by
    rw [← Real.exp_nat_mul, ← Real.exp_nat_mul]
    norm_num
  have h1 : (2.7182818283 : ℝ) ^ (15 : ℕ) < Real.exp 1 ^ (15 : ℕ) :=
    pow_lt_pow_left₀ Real.exp_one_gt_d9 (by norm_num) (by norm_num)
  have h2 : (43 / 7 : ℝ) ^ (8 : ℕ) < 2.7182818283 ^ (15 : ℕ) := by norm_num
  exact lt_of_pow_lt_pow_left₀ 8 (Real.exp_pos _).le (by rw [key]; exact h2.trans h1)

lemma exp_ten_gt : (93 / 7 : ℝ) < Real.exp 10 := by
  have key : Real.exp (10 : ℝ) = Real.exp 1 ^ (10 : ℕ) := by
    rw [← Real.exp_nat_mul]
    norm_num
  rw [key]
  have h1 : (2.7182818283 : ℝ) ^ (10 : ℕ) < Real.exp 1 ^ (10 : ℕ) :=
    pow_lt_pow_left₀ Real.exp_one_gt_d9 (by norm_num) (by norm_num)
  have h2 : (93 / 7 : ℝ) < 2.7182818283 ^ (10 : ℕ) := by norm_num
  exact h2.trans h1

lemma exp_two_gt : (4 : ℝ) < Real.exp 2 := by
  have key : Real.exp (2 : ℝ) = Real.exp 1 ^ (2 : ℕ) := by
    rw [← Real.exp_nat_mul]
    norm_num
  rw [key]
  have h1 : (2.7182818283 : ℝ) ^ (2 : ℕ) < Real.exp 1 ^ (2 : ℕ) :=
    pow_lt_pow_left₀ Real.exp_one_gt_d9 (by norm_num) (by norm_num)
  have h2 : (4 : ℝ) < 2.7182818283 ^ (2 : ℕ) := by norm_num
  exact h2.trans h1

lemma sigmoid_11_8_gt : (0.795 : ℝ) < sigmoid ((11 : ℝ) / 8) := by
  apply lt_sigmoid_of
  have h := exp_11_8_gt
  nlinarith

lemma sigmoid_11_8_lt : sigmoid ((11 : ℝ) / 8) < 0.8 := by
  apply sigmoid_lt_of
  have h := exp_11_8_lt
  nlinarith

lemma sigmoid_15_8_gt : (0.86 : ℝ) < sigmoid ((15 : ℝ) / 8) := by
  apply lt_sigmoid_of
  have h := exp_15_8_gt
  nlinarith

lemma sigmoid_15_8_lt : sigmoid ((15 : ℝ) / 8) < 0.87 := by
  apply sigmoid_lt_of
  have h := exp_15_8_lt
  nlinarith

lemma truncToInt_of_nonneg {x : ℝ} (h : 0 ≤ x) : truncToInt x = ⌊x⌋ := if_pos h

lemma truncSig_range (x : ℝ) :
    0 ≤ truncToInt (sigmoid x * 100) ∧ truncToInt (sigmoid x * 100) ≤ 99 := by
  have h0 : 0 ≤ sigmoid x * 100 := by nlinarith [sigmoid_pos x]
  have h1 : sigmoid x * 100 < 100 := by nlinarith [sigmoid_lt_one x]
  rw [truncToInt_of_nonneg h0]
  refine ⟨Int.floor_nonneg.mpr h0, ?_⟩
  have h2 : ⌊sigmoid x * 100⌋ < 100 := Int.floor_lt.mpr (by push_cast; linarith)
  omega

lemma calculate_score_range (item : ContentFingerprint) (profile : UserProfile) :
    0 ≤ calculate_score item profile ∧ calculate_score item profile ≤ 99 := by
  simp only [calculate_score]
  exact truncSig_range _

/-- Claim C3: for every fingerprint and every profile, including profiles
with arbitrarily large positive or negative affinity values, the score
returned by the scoring function (`calculate_score_with_voice_prefs`, and
likewise the highlighter's `calculateMatchScore`) lies in [0, 100]. -/
theorem score_in_range :
    (∀ (item : ContentFingerprint) (profile : UserProfile),
        0 ≤ calculate_score_with_voice_prefs item profile ∧
          calculate_score_with_voice_prefs item profile ≤ 100) ∧
      (∀ (matchP : String → Bool) (interests : Interests),
        0 ≤ (calculateMatchScore matchP interests).score ∧
          (calculateMatchScore matchP interests).score ≤ 100) := by
  constructor
  · intro item profile
    have hbase := calculate_score_range item profile
    cases hvp : profile.voice_preferences with
    | none =>
        simp only [calculate_score_with_voice_prefs, hvp]
        omega
    | some prefs =>
        simp only [calculate_score_with_voice_prefs, hvp]
        set y : ℝ :=
          max 0 (min 100 ((calculate_score item profile : ℝ) +
            ((prefs.topics.map (voiceMod item)).sum : ℝ))) with hy
        have h0 : 0 ≤ y := le_max_left _ _
        have h1 : y ≤ 100 := max_le (by norm_num) (min_le_left _ _)
        rw [truncToInt_of_nonneg h0]
        refine ⟨Int.floor_nonneg.mpr h0, ?_⟩
        have h2 : ⌊y⌋ ≤ ⌊(100 : ℝ)⌋ := Int.floor_le_floor h1
        have h3 : ⌊(100 : ℝ)⌋ = 100 := by norm_num
        omega
  · intro matchP interests
    by_cases hguard : interests.likes = [] ∧ interests.dislikes = []
    · simp [calculateMatchScore, hguard]
    · simp only [calculateMatchScore, if_neg hguard]
      constructor
      · exact le_max_left _ _
      · exact max_le (by norm_num) (min_le_left _ _)

lemma cosine_zero_right (a b : List ℚ) (h : ∀ q ∈ b, q = 0) :
    cosine_similarity a b = 0 := by
  simp only [cosine_similarity]
  rw [if_pos]
  right
  apply List.sum_eq_zero
  intro y hy
  obtain ⟨x, hx, rfl⟩ := List.mem_map.mp hy
  rw [h x hx]
  ring

lemma truncSig_eq_floor (x : ℝ) :
    truncToInt (sigmoid x * 100) = ⌊sigmoid x * 100⌋ :=
  truncToInt_of_nonneg (by nlinarith [sigmoid_pos x])

lemma calculate_score_eval (item : ContentFingerprint) (p : UserProfile)
    (htv : ∀ q ∈ p.user_text_vector, q = 0)
    (hsum : (item.topics.map (fun t => (p.topic_affinity t).getD 0)).sum = (0 : ℚ))
    (hda : p.domain_affinity = fun _ => none)
    (hiv : p.user_image_vector = []) :
    calculate_score item p =
      ⌊sigmoid ((0.275 + 0.10 * (item.prominence : ℝ)) * 5) * 100⌋ := by
  have hsim : cosine_similarity item.text_embedding p.user_text_vector = 0 :=
    cosine_zero_right _ _ htv
  have himg :
      (if item.image_embedding ≠ [] ∧ p.user_image_vector ≠ [] then
        cosine_similarity item.image_embedding p.user_image_vector
      else (0.5 : ℝ)) = 0.5 := by
    rw [if_neg]
    rw [hiv]
    simp
  simp only [calculate_score]
  rw [truncSig_eq_floor, hsim, hsum, hda, himg]
  have harg :
      (0.35 * (0 : ℝ) + 0.30 * sigmoid ((0 : ℚ) : ℝ) +
          0.15 * (((none : Option ℚ).getD 0.5 : ℚ) : ℝ) +
          0.10 * (item.prominence : ℝ) + 0.10 * 0.5) * 5 =
        (0.275 + 0.10 * (item.prominence : ℝ)) * 5 := by
    have : sigmoid ((0 : ℚ) : ℝ) = 1 / 2 := by
      rw [Rat.cast_zero, sigmoid_zero]
    rw [this]
    norm_num
    ring
  rw [harg]

lemma calculate_score_cold (item : ContentFingerprint) (p : UserProfile)
    (htv : ∀ q ∈ p.user_text_vector, q = 0)
    (hta : p.topic_affinity = fun _ => none)
    (hda : p.domain_affinity = fun _ => none)
    (hiv : p.user_image_vector = []) :
    calculate_score item p =
      ⌊sigmoid ((0.275 + 0.10 * (item.prominence : ℝ)) * 5) * 100⌋ := by
  apply calculate_score_eval item p htv _ hda hiv
  apply List.sum_eq_zero
  intro y hy
  obtain ⟨t, _, rfl⟩ := List.mem_map.mp hy
  rw [hta]
  rfl

lemma calculate_score_spec_round_cold (item : ContentFingerprint) (p : UserProfile)
    (htv : ∀ q ∈ p.user_text_vector, q = 0)
    (hta : p.topic_affinity = fun _ => none)
    (hda : p.domain_affinity = fun _ => none)
    (hiv : p.user_image_vector = []) :
    calculate_score_spec_round item p =
      round (sigmoid ((0.275 + 0.10 * (item.prominence : ℝ)) * 5) * 100) := by
  have hsim : cosine_similarity item.text_embedding p.user_text_vector = 0 :=
    cosine_zero_right _ _ htv
  have hsum : (item.topics.map (fun t => (p.topic_affinity t).getD 0)).sum = (0 : ℚ) := by
    apply List.sum_eq_zero
    intro y hy
    obtain ⟨t, _, rfl⟩ := List.mem_map.mp hy
    rw [hta]
    rfl
  have himg :
      (if item.image_embedding ≠ [] ∧ p.user_image_vector ≠ [] then
        cosine_similarity item.image_embedding p.user_image_vector
      else (0.5 : ℝ)) = 0.5 := by
    rw [if_neg]
    rw [hiv]
    simp
  simp only [calculate_score_spec_round]
  rw [hsim, hsum, hda, himg]
  have harg :
      (0.35 * (0 : ℝ) + 0.30 * sigmoid ((0 : ℚ) : ℝ) +
          0.15 * (((none : Option ℚ).getD 0.5 : ℚ) : ℝ) +
          0.10 * (item.prominence : ℝ) + 0.10 * 0.5) * 5 =
        (0.275 + 0.10 * (item.prominence : ℝ)) * 5 := by
    have : sigmoid ((0 : ℚ) : ℝ) = 1 / 2 := by
      rw [Rat.cast_zero, sigmoid_zero]
    rw [this]
    norm_num
    ring
  rw [harg]

lemma floor_sigmoid_11_8 : ⌊sigmoid ((11 : ℝ) / 8) * 100⌋ = 79 := by
  rw [Int.floor_eq_iff]
  constructor
  · push_cast
    linarith [sigmoid_11_8_gt]
  · push_cast
    linarith [sigmoid_11_8_lt]

lemma floor_sigmoid_15_8 : ⌊sigmoid ((15 : ℝ) / 8) * 100⌋ = 86 := by
  rw [Int.floor_eq_iff]
  constructor
  · push_cast
    linarith [sigmoid_15_8_gt]
  · push_cast
    linarith [sigmoid_15_8_lt]

lemma round_sigmoid_11_8 : round (sigmoid ((11 : ℝ) / 8) * 100) = 80 := by
  rw [round_eq, Int.floor_eq_iff]
  constructor
  · push_cast
    linarith [sigmoid_11_8_gt]
  · push_cast
    linarith [sigmoid_11_8_lt]

lemma cold0_eval : calculate_score itemProm0 coldProfile = 79 := by
  rw [calculate_score_cold itemProm0 coldProfile (by simp [coldProfile]) rfl rfl rfl]
  have harg : ((0.275 : ℝ) + 0.10 * ((itemProm0.prominence : ℚ) : ℝ)) * 5 = 11 / 8 := by
    norm_num [itemProm0]
  rw [harg, floor_sigmoid_11_8]

lemma cold1_eval : calculate_score itemProm1 coldProfile = 86 := by
  rw [calculate_score_cold itemProm1 coldProfile (by simp [coldProfile]) rfl rfl rfl]
  have harg : ((0.275 : ℝ) + 0.10 * ((itemProm1.prominence : ℚ) : ℝ)) * 5 = 15 / 8 := by
    norm_num [itemProm1, itemProm0]
  rw [harg, floor_sigmoid_15_8]

/-- Claim C1, counterexample: at a cold profile and a prominence-0 item the
code (`int` truncation) yields 79 while the spec's `round(sigmoid(raw*5)*100)`
yields 80, so the claimed rounding does not describe `calculate_score`. -/
theorem score_round_cex :
    calculate_score itemProm0 coldProfile = 79 ∧
      calculate_score_spec_round itemProm0 coldProfile = 80 ∧
      calculate_score itemProm0 coldProfile ≠
        calculate_score_spec_round itemProm0 coldProfile := by
  have h79 := cold0_eval
  have h80 : calculate_score_spec_round itemProm0 coldProfile = 80 := by
    rw [calculate_score_spec_round_cold itemProm0 coldProfile
      (by simp [coldProfile]) rfl rfl rfl]
    have harg : ((0.275 : ℝ) + 0.10 * ((itemProm0.prominence : ℚ) : ℝ)) * 5 = 11 / 8 := by
      norm_num [itemProm0]
    rw [harg, round_sigmoid_11_8]
  refine ⟨h79, h80, ?_⟩
  rw [h79, h80]
  decide

/-- Claim C1 (amended): for every fingerprint and profile, the scoring
engine computes `raw = 0.35*simText + 0.30*sigmoid(topicRaw) +
0.15*domainScore + 0.10*prominenceScore + 0.10*imageScore` and maps it to
the output integer by truncation, `int(sigmoid(raw*5)*100)` (the floor,
since the value is nonnegative) — not by rounding — before voice bonuses
are added on the 0-100 scale. -/
theorem score_formula (item : ContentFingerprint) (profile : UserProfile) :
    calculate_score item profile =
      ⌊sigmoid ((0.35 * cosine_similarity item.text_embedding profile.user_text_vector
        + 0.30 * sigmoid (((item.topics.map
            (fun t => (profile.topic_affinity t).getD 0)).sum : ℚ) : ℝ)
        + 0.15 * (((profile.domain_affinity item.domain).getD 0.5 : ℚ) : ℝ)
        + 0.10 * (item.prominence : ℝ)
        + 0.10 * (if item.image_embedding ≠ [] ∧ profile.user_image_vector ≠ [] then
            cosine_similarity item.image_embedding profile.user_image_vector
          else 0.5)) * 5) * 100⌋ ∧
    calculate_score_with_voice_prefs item profile =
      (match profile.voice_preferences with
       | none => calculate_score item profile
       | some prefs =>
           truncToInt (max 0 (min 100 ((calculate_score item profile : ℝ) +
             ((prefs.topics.map (voiceMod item)).sum : ℝ))))) := by
  constructor
  · simp only [calculate_score]
    rw [truncSig_eq_floor]
  · cases hvp : profile.voice_preferences with
    | none => simp only [calculate_score_with_voice_prefs, hvp]
    | some prefs => simp only [calculate_score_with_voice_prefs, hvp]

/-- Claim C2, counterexample: for the cold-start profile (empty
affinities, zero text vector, no voice preferences) two items that differ
only in prominence score 79 and 86 — not the same neutral ≈50 value. -/
theorem cold_start_cex :
    calculate_score itemProm0 coldProfile = 79 ∧
      calculate_score itemProm1 coldProfile = 86 ∧
      calculate_score itemProm0 coldProfile ≠ calculate_score itemProm1 coldProfile := by
  refine ⟨cold0_eval, cold1_eval, ?_⟩
  rw [cold0_eval, cold1_eval]
  decide

/-- Claim C2 (amended): a profile with empty `topicAffinity`, empty
`domainAffinity`, zero `textVector`, empty image vector and no voice
preferences scores an item as `int(sigmoid(5*(0.275 + 0.10*prominence))*100)`,
a value depending only on the item's prominence (79 at prominence 0, 86 at
prominence 1) — not a constant ≈50; the highlighter's `calculateMatchScore`
instead returns the constant 0 for empty interests. -/
theorem cold_start_score (item : ContentFingerprint) (p : UserProfile)
    (htv : ∀ q ∈ p.user_text_vector, q = 0)
    (hta : p.topic_affinity = fun _ => none)
    (hda : p.domain_affinity = fun _ => none)
    (hiv : p.user_image_vector = [])
    (hvp : p.voice_preferences = none) :
    calculate_score_with_voice_prefs item p =
        ⌊sigmoid ((0.275 + 0.10 * (item.prominence : ℝ)) * 5) * 100⌋ ∧
      (∀ (matchP : String → Bool) (f : String → Option ℚ),
        calculateMatchScore matchP ⟨[], [], f⟩ =
          ⟨0, [], false⟩) := by
  constructor
  · simp only [calculate_score_with_voice_prefs, hvp]
    exact calculate_score_cold item p htv hta hda hiv
  · intro matchP f
    simp [calculateMatchScore]

/-- Witness for `cold_start_score` at the concrete cold profile and
prominence-0 item. -/
theorem cold_start_score_witness :
    calculate_score_with_voice_prefs itemProm0 coldProfile =
      ⌊sigmoid ((0.275 + 0.10 * (itemProm0.prominence : ℝ)) * 5) * 100⌋ :=
  (cold_start_score itemProm0 coldProfile (by simp [coldProfile]) rfl rfl rfl rfl).1

lemma bumpTopics_apply (delta : ℚ) (l : List String) (hnd : l.Nodup)
    (f : String → Option ℚ) (t : String) :
    bumpTopics delta l f t = if t ∈ l then some ((f t).getD 0 + delta) else f t := by
  induction l generalizing f with
  | nil => simp [bumpTopics]
  | cons u rest ih =>
      obtain ⟨hu, hrest⟩ := List.nodup_cons.mp hnd
      have hstep :
          bumpTopics delta (u :: rest) f =
            bumpTopics delta rest
              (fun s => if s = u then some ((f u).getD 0 + delta) else f s) := rfl
      rw [hstep, ih hrest]
      by_cases h1 : t ∈ rest
      · have htu : t ≠ u := fun he => hu (he ▸ h1)
        simp [h1, htu]
      · by_cases h2 : t = u
        · subst h2
          simp [h1]
        · simp [h1, h2]

/-- Claim C4: for every profile and every click event on an item (whose
topics form a set, per the data-model invariant), `applyEvent` updates
`textVector` to `0.85*textVector + 0.15*item.textEmbedding` and increases
`topicAffinity[t]` by exactly 0.3 for each topic `t` of the item, leaving
every other topic's affinity unchanged. -/
theorem applyEvent_click_update (p : UserProfile) (item : ContentFingerprint)
    (hnd : item.topics.Nodup) :
    (applyEvent p (Event.click item)).user_text_vector =
        List.zipWith (fun a b => 0.85 * a + 0.15 * b)
          p.user_text_vector item.text_embedding ∧
      (∀ t ∈ item.topics,
        (applyEvent p (Event.click item)).topic_affinity t =
          some ((p.topic_affinity t).getD 0 + 0.3)) ∧
      (∀ t, t ∉ item.topics →
        (applyEvent p (Event.click item)).topic_affinity t = p.topic_affinity t) := by
  refine ⟨?_, ?_, ?_⟩
  · simp only [applyEvent]
    have hfun :
        (fun a b : ℚ => (0.85 : ℚ) * a + (1 - 0.85) * b) =
          fun a b : ℚ => 0.85 * a + 0.15 * b := by
      funext a b
      norm_num
    rw [hfun]
  · intro t ht
    simp only [applyEvent]
    rw [bumpTopics_apply 0.3 item.topics hnd, if_pos ht]
  · intro t ht
    simp only [applyEvent]
    rw [bumpTopics_apply 0.3 item.topics hnd, if_neg ht]

/-- Witness for `applyEvent_click_update`: clicking an item with topic
"AI" on a fresh profile sets `topicAffinity["AI"]` to 0.3, leaves other
topics absent and leaves the empty text vector empty. -/
theorem applyEvent_click_update_witness :
    (applyEvent coldProfile (Event.click itemAI)).topic_affinity "AI" = some 0.3 ∧
      (applyEvent coldProfile (Event.click itemAI)).topic_affinity "sports" = none ∧
      (applyEvent coldProfile (Event.click itemAI)).user_text_vector = [] := by
  obtain ⟨h1, h2, h3⟩ :=
    applyEvent_click_update coldProfile itemAI (by simp [itemAI, itemProm0])
  refine ⟨?_, ?_, ?_⟩
  · rw [h2 "AI" (by simp [itemAI, itemProm0])]
    norm_num [coldProfile]
  · rw [h3 "sports" (by simp [itemAI, itemProm0])]
    rfl
  · rw [h1]
    simp [coldProfile]

/-- Claim C5: for every profile and every thumbs-down event on an item
(whose topics form a set), `applyEvent` decreases `topicAffinity[t]` by
exactly 0.1 for each topic `t` of the item, leaves other topics
unchanged, and leaves `textVector` unchanged. -/
theorem applyEvent_thumbsDown_update (p : UserProfile) (item : ContentFingerprint)
    (hnd : item.topics.Nodup) :
    (applyEvent p (Event.thumbsDown item)).user_text_vector = p.user_text_vector ∧
      (∀ t ∈ item.topics,
        (applyEvent p (Event.thumbsDown item)).topic_affinity t =
          some ((p.topic_affinity t).getD 0 - 0.1)) ∧
      (∀ t, t ∉ item.topics →
        (applyEvent p (Event.thumbsDown item)).topic_affinity t = p.topic_affinity t) := by
  refine ⟨rfl, ?_, ?_⟩
  · intro t ht
    simp only [applyEvent]
    rw [bumpTopics_apply (-0.1) item.topics hnd, if_pos ht]
    congr 1
    ring
  · intro t ht
    simp only [applyEvent]
    rw [bumpTopics_apply (-0.1) item.topics hnd, if_neg ht]

/-- Witness for `applyEvent_thumbsDown_update`: a thumbs-down on an item
with topic "AI" on a fresh profile sets `topicAffinity["AI"]` to -0.1 and
keeps the text vector. -/
theorem applyEvent_thumbsDown_update_witness :
    (applyEvent coldProfile (Event.thumbsDown itemAI)).topic_affinity "AI" =
        some (-0.1) ∧
      (applyEvent coldProfile (Event.thumbsDown itemAI)).user_text_vector =
        coldProfile.user_text_vector := by
  obtain ⟨h1, h2, h3⟩ :=
    applyEvent_thumbsDown_update coldProfile itemAI (by simp [itemAI, itemProm0])
  refine ⟨?_, h1⟩
  rw [h2 "AI" (by simp [itemAI, itemProm0])]
  norm_num [coldProfile]

lemma setFold (v : ℚ) (l : List String) (g : String → Option ℚ) (k : String) :
    (l.foldl (fun g2 st => setKey g2 st v) g) k = if k ∈ l then some v else g k := by
  induction l generalizing g with
  | nil => simp
  | cons s tl ih =>
      rw [List.foldl_cons, ih]
      by_cases h1 : k ∈ tl
      · simp [h1]
      · by_cases h2 : k = s
        · subst h2
          simp [h1, setKey]
        · simp [h1, h2, setKey]

lemma mergePref_apply (f : String → Option ℚ) (tp : VoiceTopicPref) (k : String) :
    mergePref f tp k =
      match prefWrite tp k with
      | some v => some v
      | none => f k := by
  simp only [mergePref]
  rw [setFold, setFold]
  simp only [prefWrite, setKey]
  by_cases ha : k ∈ tp.avoid_subtopics
  · simp [ha]
  · by_cases hs : k ∈ tp.subtopics
    · simp [ha, hs]
    · by_cases ht : k = tp.topic
      · subst ht
        simp [ha, hs]
      · simp [ha, hs, ht]

lemma lastWrites_foldl (prefs : List VoiceTopicPref) (k : String) (acc : Option ℚ) :
    prefs.foldl
        (fun a tp => match prefWrite tp k with | some v => some v | none => a) acc =
      match lastWrites prefs k with
      | some v => some v
      | none => acc := by
  induction prefs generalizing acc with
  | nil => simp [lastWrites]
  | cons tp rest ih =>
      rw [List.foldl_cons, ih]
      have hlw :
          lastWrites (tp :: rest) k =
            rest.foldl
              (fun a tp2 => match prefWrite tp2 k with | some v => some v | none => a)
              (match prefWrite tp k with | some v => some v | none => none) := rfl
      rw [hlw, ih]
      cases hpw : prefWrite tp k <;> cases hlr : lastWrites rest k <;> simp

lemma mergeAll_apply (prefs : List VoiceTopicPref) (f : String → Option ℚ) (k : String) :
    (prefs.foldl mergePref f) k =
      match lastWrites prefs k with
      | some v => some v
      | none => f k := by
  induction prefs generalizing f with
  | nil => simp [lastWrites]
  | cons tp rest ih =>
      rw [List.foldl_cons, ih, mergePref_apply]
      have h2 :
          lastWrites (tp :: rest) k =
            match lastWrites rest k with
            | some v => some v
            | none => match prefWrite tp k with | some v => some v | none => none := by
        have hlw :
            lastWrites (tp :: rest) k =
              rest.foldl
                (fun a tp2 => match prefWrite tp2 k with | some v => some v | none => a)
                (match prefWrite tp k with | some v => some v | none => none) := rfl
        rw [hlw, lastWrites_foldl]
      rw [h2]
      cases lastWrites rest k <;> cases prefWrite tp k <;> simp

lemma mergeAll_idem (prefs : List VoiceTopicPref) (f : String → Option ℚ) :
    prefs.foldl mergePref (prefs.foldl mergePref f) = prefs.foldl mergePref f := by
  funext k
  rw [mergeAll_apply, mergeAll_apply]
  cases lastWrites prefs k <;> simp

/-- Claim C6, counterexample: with a prior affinity of 1 for "crypto" and
a liked-crypto onboarding result of intensity 0.8, `save_preferences`
sets the affinity to 0.8 (not 1 + 0.8: the merge is a replacement, not
additive), and applying the same onboarding result twice leaves exactly
the affinity of one application — the two do not differ. -/
theorem voice_merge_cex :
    (save_preferences (save_preferences profileCrypto1 prefsCryptoLike)
          prefsCryptoLike).topic_affinity "crypto" =
        (save_preferences profileCrypto1 prefsCryptoLike).topic_affinity "crypto" ∧
      (save_preferences profileCrypto1 prefsCryptoLike).topic_affinity "crypto" =
        some 0.8 ∧
      profileCrypto1.topic_affinity "crypto" = some 1 ∧
      some ((0.8 : ℚ)) ≠ some ((1 : ℚ) + 0.8) := by
  refine ⟨?_, ?_, rfl, by norm_num⟩
  · simp [save_preferences, mergePref, setKey, prefsCryptoLike]
  · simp [save_preferences, mergePref, setKey, prefsCryptoLike]

/-- Claim C6 (amended): the `voiceOnboardingComplete` merge overwrites the
affinity of each mentioned topic/subtopic with the voice-derived weight
(it is a replacement, not an addition), so applying the same onboarding
result twice is idempotent: the profile after two merges equals the
profile after one merge. -/
theorem save_preferences_idem (p : UserProfile) (prefs : VoicePreferences) :
    save_preferences (save_preferences p prefs) prefs = save_preferences p prefs := by
  simp only [save_preferences]
  rw [mergeAll_idem]

lemma calculate_score_eq (item : ContentFingerprint) (profile : UserProfile) :
    calculate_score item profile =
      ⌊sigmoid ((0.35 * cosine_similarity item.text_embedding profile.user_text_vector
        + 0.30 * sigmoid (((item.topics.map
            (fun t => (profile.topic_affinity t).getD 0)).sum : ℚ) : ℝ)
        + 0.15 * (((profile.domain_affinity item.domain).getD 0.5 : ℚ) : ℝ)
        + 0.10 * (item.prominence : ℝ)
        + 0.10 * (if item.image_embedding ≠ [] ∧ profile.user_image_vector ≠ [] then
            cosine_similarity item.image_embedding profile.user_image_vector
          else 0.5)) * 5) * 100⌋ := by
  simp only [calculate_score]
  rw [truncSig_eq_floor]

lemma calculate_score_append_topic_le (itemB : ContentFingerprint) (p : UserProfile)
    (t0 : String) (ha : ((p.topic_affinity t0).getD 0 : ℚ) ≤ 0) :
    calculate_score { itemB with topics := itemB.topics ++ [t0] } p ≤
      calculate_score itemB p := by
  rw [calculate_score_eq, calculate_score_eq]
  apply Int.floor_le_floor
  dsimp only
  have hS : ((((itemB.topics ++ [t0]).map
        (fun t => (p.topic_affinity t).getD 0)).sum : ℚ) : ℝ) ≤
      (((itemB.topics.map (fun t => (p.topic_affinity t).getD 0)).sum : ℚ) : ℝ) := by
    apply Rat.cast_le.mpr
    rw [List.map_append, List.sum_append]
    simp only [List.map_cons, List.map_nil, List.sum_cons, List.sum_nil]
    linarith
  have h1 := sigmoid_mono hS
  apply mul_le_mul_of_nonneg_right _ (by norm_num : (0 : ℝ) ≤ 100)
  apply sigmoid_mono
  apply mul_le_mul_of_nonneg_right _ (by norm_num : (0 : ℝ) ≤ 5)
  linarith

lemma lowerStr_crypto : lowerStr "crypto" = "crypto" := by decide

lemma voiceMod_cryptoDislike_mem (item : ContentFingerprint)
    (hmem : "crypto" ∈ item.topics.map lowerStr) :
    voiceMod item
        { topic := "crypto", sentiment := "dislike", intensity := 0.8,
          subtopics := [], avoid_subtopics := [] } = -16 := by
  have hex : ∃ a ∈ item.topics, lowerStr a = lowerStr "crypto" := by
    obtain ⟨x, hx, hlx⟩ := List.mem_map.mp hmem
    exact ⟨x, hx, by rw [hlx, lowerStr_crypto]⟩
  simp [voiceMod, hex]
  norm_num

lemma voiceMod_cryptoDislike_not (item : ContentFingerprint)
    (hnot : "crypto" ∉ item.topics.map lowerStr) :
    voiceMod item
        { topic := "crypto", sentiment := "dislike", intensity := 0.8,
          subtopics := [], avoid_subtopics := [] } = 0 := by
  have hnex : ¬ ∃ a ∈ item.topics, lowerStr a = lowerStr "crypto" := by
    rintro ⟨x, hx, hlx⟩
    apply hnot
    rw [← lowerStr_crypto, ← hlx]
    exact List.mem_map_of_mem lowerStr hx
  simp [voiceMod, hnex]

lemma truncToInt_intCast (n : ℤ) : truncToInt ((n : ℝ)) = n := by
  unfold truncToInt
  split
  · exact Int.floor_intCast n
  · exact Int.ceil_intCast n

lemma with_voice_eval_int (item : ContentFingerprint) (p : UserProfile)
    (prefs : VoicePreferences) (m : ℤ)
    (hvp : p.voice_preferences = some prefs)
    (hmod : ((prefs.topics.map (voiceMod item)).sum : ℚ) = (m : ℚ)) :
    calculate_score_with_voice_prefs item p =
      max 0 (min 100 (calculate_score item p + m)) := by
  simp only [calculate_score_with_voice_prefs, hvp, hmod]
  have hcast : ((calculate_score item p : ℝ) + (((m : ℚ) : ℚ) : ℝ)) =
      ((calculate_score item p + m : ℤ) : ℝ) := by
    push_cast
    ring
  rw [hcast]
  have hmm : max (0 : ℝ) (min 100 ((calculate_score item p + m : ℤ) : ℝ)) =
      ((max 0 (min 100 (calculate_score item p + m)) : ℤ) : ℝ) := by
    push_cast
    rfl
  rw [hmm, truncToInt_intCast]

/-- Claim C7 (amended): for a profile whose voice preferences consist of
`{topic:"crypto", sentiment:"dislike", intensity:0.8}` and whose stored
`topicAffinity` for "crypto" is non-positive (e.g. absent), an item whose
topics add "crypto" to an otherwise-identical item's topics scores at
least 20*0.8 = 16 points lower, subject to clamping at 0.  (Without the
affinity condition the claim fails: a large positive stored "crypto"
affinity raises the base score of the crypto item by more than the voice
penalty.) -/
theorem voice_dislike_penalty (itemB : ContentFingerprint) (p : UserProfile) (conf : ℚ)
    (hvp : p.voice_preferences = some
      { topics := [{ topic := "crypto", sentiment := "dislike", intensity := 0.8,
                     subtopics := [], avoid_subtopics := [] }],
        confidence := conf })
    (ha : ((p.topic_affinity "crypto").getD 0 : ℚ) ≤ 0)
    (hB : "crypto" ∉ itemB.topics.map lowerStr) :
    calculate_score_with_voice_prefs
        { itemB with topics := itemB.topics ++ ["crypto"] } p ≤
      max 0 (calculate_score_with_voice_prefs itemB p - 16) := by
  have hbA := calculate_score_range { itemB with topics := itemB.topics ++ ["crypto"] } p
  have hbB := calculate_score_range itemB p
  have hmono := calculate_score_append_topic_le itemB p "crypto" ha
  have hmemA : "crypto" ∈
      ({ itemB with topics := itemB.topics ++ ["crypto"] } :
        ContentFingerprint).topics.map lowerStr := by
    show "crypto" ∈ (itemB.topics ++ ["crypto"]).map lowerStr
    simp [List.map_append, lowerStr_crypto]
  have hA := with_voice_eval_int
    { itemB with topics := itemB.topics ++ ["crypto"] } p _ (-16) hvp
    (by simp [voiceMod_cryptoDislike_mem _ hmemA])
  have hBv := with_voice_eval_int itemB p _ 0 hvp
    (by simp [voiceMod_cryptoDislike_not _ hB])
  rw [hA, hBv]
  omega

/-- Witness for `voice_dislike_penalty`: concrete cold profile with the
dislike-crypto voice preference, topicless base item, and its
crypto-tagged variant. -/
theorem voice_dislike_penalty_witness :
    calculate_score_with_voice_prefs
        { itemProm0 with topics := itemProm0.topics ++ ["crypto"] }
        profileVoiceCrypto0 ≤
      max 0 (calculate_score_with_voice_prefs itemProm0 profileVoiceCrypto0 - 16) :=
  voice_dislike_penalty itemProm0 profileVoiceCrypto0 1 rfl
    (by simp [profileVoiceCrypto0, coldProfile])
    (by simp [itemProm0])

/-- Claim C7, counterexample: with the same dislike-crypto voice
preference but a stored "crypto" affinity of 10, the crypto-tagged item
(score ≥ 64 after the -16 voice penalty) does NOT score at least 16 below
the otherwise-identical topicless item (score 79): 64 > 79 - 16 = 63. -/
theorem voice_dislike_penalty_cex :
    ¬ (calculate_score_with_voice_prefs itemCrypto profileVoiceCryptoBig ≤
        max 0 (calculate_score_with_voice_prefs itemProm0 profileVoiceCryptoBig - 16)) := by
  have hB79 : calculate_score itemProm0 profileVoiceCryptoBig = 79 := by
    rw [calculate_score_eval itemProm0 profileVoiceCryptoBig
      (by simp [profileVoiceCryptoBig, coldProfile]) (by simp [itemProm0]) rfl rfl]
    have harg : ((0.275 : ℝ) + 0.10 * ((itemProm0.prominence : ℚ) : ℝ)) * 5 = 11 / 8 := by
      norm_num [itemProm0]
    rw [harg, floor_sigmoid_11_8]
  have hs10 : (0.93 : ℝ) < sigmoid 10 := by
    apply lt_sigmoid_of
    have h := exp_ten_gt
    nlinarith
  have hbA_ge : 80 ≤ calculate_score itemCrypto profileVoiceCryptoBig := by
    rw [calculate_score_eq]
    have hsim : cosine_similarity itemCrypto.text_embedding
        profileVoiceCryptoBig.user_text_vector = 0 :=
      cosine_zero_right _ _ (by simp [profileVoiceCryptoBig, coldProfile])
    have hsum : (itemCrypto.topics.map
        (fun t => (profileVoiceCryptoBig.topic_affinity t).getD 0)).sum = (10 : ℚ) := by
      simp [itemCrypto, itemProm0, profileVoiceCryptoBig, coldProfile]
    have hdom : ((profileVoiceCryptoBig.domain_affinity itemCrypto.domain).getD 0.5 : ℚ)
        = 0.5 := rfl
    have himg : (if itemCrypto.image_embedding ≠ [] ∧
        profileVoiceCryptoBig.user_image_vector ≠ [] then
          cosine_similarity itemCrypto.image_embedding
            profileVoiceCryptoBig.user_image_vector
        else (0.5 : ℝ)) = 0.5 := by
      rw [if_neg]
      simp [profileVoiceCryptoBig, coldProfile]
    rw [hsim, hsum, hdom, himg]
    have hprom : ((itemCrypto.prominence : ℚ) : ℝ) = 0 := by
      norm_num [itemCrypto, itemProm0]
    rw [hprom]
    apply Int.le_floor.mpr
    have harg : (0.35 * (0 : ℝ) + 0.30 * sigmoid ((10 : ℚ) : ℝ) +
        0.15 * ((0.5 : ℚ) : ℝ) + 0.10 * 0 + 0.10 * 0.5) * 5 =
        0.625 + 1.5 * sigmoid 10 := by
      norm_num
      ring
    rw [harg]
    have h2 : (2 : ℝ) ≤ 0.625 + 1.5 * sigmoid 10 := by linarith
    have h3 := sigmoid_mono h2
    have h4 : (0.8 : ℝ) < sigmoid 2 := by
      apply lt_sigmoid_of
      have h := exp_two_gt
      nlinarith
    push_cast
    nlinarith
  have hbA_le := (calculate_score_range itemCrypto profileVoiceCryptoBig).2
  have hmemA : "crypto" ∈ itemCrypto.topics.map lowerStr := by
    simp [itemCrypto, itemProm0, lowerStr_crypto]
  have hA := with_voice_eval_int itemCrypto profileVoiceCryptoBig prefsCryptoDislike
    (-16) rfl
    (by simp [prefsCryptoDislike, voiceMod_cryptoDislike_mem _ hmemA])
  have hnotB : "crypto" ∉ itemProm0.topics.map lowerStr := by simp [itemProm0]
  have hBv := with_voice_eval_int itemProm0 profileVoiceCryptoBig prefsCryptoDislike
    0 rfl (by simp [prefsCryptoDislike, voiceMod_cryptoDislike_not _ hnotB])
  rw [hA, hBv, hB79]
  omega

lemma stripFirstOcc_of_append (pat rest : List Char) :
    stripFirstOcc pat (pat ++ rest) = rest := by
  cases hs : pat ++ rest with
  | nil =>
      obtain ⟨hp, hr⟩ := List.append_eq_nil.mp hs
      rw [hr]
      rfl
  | cons c t =>
      have hpre : pat.isPrefixOf (c :: t) = true := by
        rw [List.isPrefixOf_iff_prefix]
        exact ⟨rest, hs⟩
      simp only [stripFirstOcc, hpre, if_true]
      rw [← hs, List.drop_left]

/-- Claim C8, counterexample: for an href on which `new URL` throws, the
`buildCard` domain derivation falls back to the raw href string, not to
the empty string. -/
theorem domain_fallback_cex :
    buildCardDomain "::" none = "::" ∧ ("::" : String) ≠ "" :=
  ⟨rfl, by decide⟩

/-- Claim C8 (amended): the domain derivation of `buildCard` never throws
(the try/catch makes it total): when the href cannot be parsed as a URL
the domain falls back to the ORIGINAL href string (not the empty string),
and when parsing succeeds the domain is the parsed hostname with its
first occurrence of "www." removed — in particular a leading "www." is
stripped. -/
theorem domain_derivation (url : String) (h : String) (rest : List Char)
    (hh : h.data = "www.".data ++ rest) :
    buildCardDomain url none = url ∧
      buildCardDomain url (some h) = String.mk rest := by
  refine ⟨rfl, ?_⟩
  simp only [buildCardDomain]
  rw [hh, stripFirstOcc_of_append]

/-- Witness for `domain_derivation`: an unparseable href keeps its raw
value and a parsed "www."-hostname loses the leading "www.". -/
theorem domain_derivation_witness :
    buildCardDomain "::" none = "::" ∧
      buildCardDomain "::" (some "www.example.com") = "example.com" := by
  have h := domain_derivation "::" "www.example.com" "example.com".data (by decide)
  exact ⟨h.1, by rw [h.2]⟩

/-- Claim C9, counterexample: an unauthenticated LOG_EVENT is rejected —
the handler answers success=false with error 'Not authenticated' instead
of an unconditional acknowledgment. -/
theorem log_event_cex :
    handleLogEvent none (Except.ok ()) =
        { success := false, error := some "Not authenticated", data := none } ∧
      (handleLogEvent none (Except.ok ())).success = false :=
  ⟨rfl, rfl⟩

/-- Claim C9 (amended): a LOG_EVENT response never carries score data and,
with an auth token, the handler only acknowledges (success, or an error
string when the backend call fails); but it DOES reject events: without a
token the response is success=false, 'Not authenticated'. -/
theorem log_event_responses :
    (∀ (tok : Option String) (res : Except String Unit),
        (handleLogEvent tok res).data = none) ∧
      (∀ t : String,
        handleLogEvent (some t) (Except.ok ()) =
          { success := true, error := none, data := none }) ∧
      (∀ t e : String,
        handleLogEvent (some t) (Except.error e) =
          { success := false, error := some e, data := none }) ∧
      (∀ res : Except String Unit,
        handleLogEvent none res =
          { success := false, error := some "Not authenticated", data := none }) := by
  refine ⟨?_, fun t => rfl, fun t e => rfl, fun res => rfl⟩
  intro tok res
  cases tok <;> cases res <;> rfl

lemma extractAux_mem (innerH : ℚ) (l : List RawEl) (seen : List (List Char))
    (idx : ℕ) (it : PageItem) (hit : it ∈ extractAux innerH l seen idx) :
    (10 ≤ it.text.length ∧ it.text.length ≤ 200 ∧
        50 ≤ it.bbox.2.2.1 ∧ 20 ≤ it.bbox.2.2.2) ∧
      it.text ∉ seen := by
  induction l generalizing seen idx with
  | nil => simp [extractAux] at hit
  | cons el rest ih =>
      simp only [extractAux] at hit
      by_cases h1 : el.width < 50 ∨ el.height < 20
      · rw [if_pos h1] at hit
        exact ih _ _ hit
      · rw [if_neg h1] at hit
        by_cases h2 : el.y > innerH * 3
        · rw [if_pos h2] at hit
          exact ih _ _ hit
        · rw [if_neg h2] at hit
          by_cases h3 : (el.text.take 200).length < 10
          · rw [if_pos h3] at hit
            exact ih _ _ hit
          · rw [if_neg h3] at hit
            by_cases h4 : el.text.take 200 ∈ seen
            · rw [if_pos h4] at hit
              exact ih _ _ hit
            · rw [if_neg h4] at hit
              push_neg at h1
              rcases List.mem_cons.mp hit with heq | htail
              · subst heq
                dsimp only
                refine ⟨⟨by omega, List.length_take_le _ _, h1.1, h1.2⟩, h4⟩
              · have hrec := ih _ _ htail
                exact ⟨hrec.1, fun hmem => hrec.2 (List.mem_cons_of_mem _ hmem)⟩

lemma extractAux_pairwise (innerH : ℚ) (l : List RawEl) (seen : List (List Char))
    (idx : ℕ) :
    (extractAux innerH l seen idx).Pairwise (fun a b => a.text ≠ b.text) := by
  induction l generalizing seen idx with
  | nil => simp [extractAux]
  | cons el rest ih =>
      simp only [extractAux]
      by_cases h1 : el.width < 50 ∨ el.height < 20
      · rw [if_pos h1]
        exact ih _ _
      · rw [if_neg h1]
        by_cases h2 : el.y > innerH * 3
        · rw [if_pos h2]
          exact ih _ _
        · rw [if_neg h2]
          by_cases h3 : (el.text.take 200).length < 10
          · rw [if_pos h3]
            exact ih _ _
          · rw [if_neg h3]
            by_cases h4 : el.text.take 200 ∈ seen
            · rw [if_pos h4]
              exact ih _ _
            · rw [if_neg h4]
              rw [List.pairwise_cons]
              refine ⟨?_, ih _ _⟩
              intro b hb heq
              have hmem :=
                (extractAux_mem innerH rest _ _ b hb).2
              exact hmem (heq ▸ List.mem_cons_self _ _)

/-- Claim C10: for every page, `extractPageItems` returns at most 50
items; every returned item's text has between 10 and 200 characters; the
returned texts are pairwise distinct; and elements whose bounding box is
narrower than 50 pixels or shorter than 20 pixels are never included
(every returned bbox has width ≥ 50 and height ≥ 20). -/
theorem extractPageItems_bounds (innerH : ℚ) (els : List RawEl) :
    (extractPageItems innerH els).length ≤ 50 ∧
      (∀ it ∈ extractPageItems innerH els,
        10 ≤ it.text.length ∧ it.text.length ≤ 200 ∧
          50 ≤ it.bbox.2.2.1 ∧ 20 ≤ it.bbox.2.2.2) ∧
      (extractPageItems innerH els).Pairwise (fun a b => a.text ≠ b.text) := by
  refine ⟨List.length_take_le _ _, ?_, ?_⟩
  · intro it hit
    exact (extractAux_mem innerH els [] 0 it ((List.take_sublist _ _).subset hit)).1
  · exact (extractAux_pairwise innerH els [] 0).sublist (List.take_sublist _ _)

end InterestLens
